import Mathlib

/-!
Shallow embedding of the taxonomy reconciliation and linkage engine of the
PanGBank-api repository, together with theorems settling the frozen claims.

The embedded code comes from:
* `src/app/manage_db/taxonomy.py` — lineage parsing, taxonomy-source
  creation, taxon materialisation (`create_taxon_from_lineages`),
  genome–taxon linking (`link_genomes_and_taxa`), `get_common_taxa`;
* `src/pangbank_api/manage_db/collections.py` — the pangenome
  common-ancestor resolver (`link_pangenome_and_genome_taxa`) and
  `create_collection_release` / `set_latest_release_in_collection`;
* `src/api_pangbank/taxonomy.py` — the dict-based taxon identity index
  (`create_and_get_taxa`).

Python strings are modelled as `List Char` wrapped in `String`; the
database session is modelled as explicit lists of rows threaded through the
functions; raised exceptions are modelled with `Except String`.
-/

namespace PanGBank

/-- The character class stripped by Python `str.strip()`:
space, `\t`, `\n`, `\r`, `\x0b` (vertical tab), `\x0c` (form feed). -/
def pyIsSpace (c : Char) : Bool :=
  c = ' ' || c = '\t' || c = '\n' || c = '\r' || c.toNat = 11 || c.toNat = 12

/-- Python `str.strip()` on a list of characters: drop whitespace from both
ends. -/
def pyStripChars (cs : List Char) : List Char :=
  ((cs.dropWhile pyIsSpace).reverse.dropWhile pyIsSpace).reverse

/-- Python `str.strip()` on a string. -/
def pyStrip (s : String) : String :=
  String.mk (pyStripChars s.data)

/-- Python `str.split(sep)` for a one-character separator `sep` (no
maxsplit): splitting the empty string gives `[""]`, and empty fields are
kept. -/
def pySplitChar (sep : Char) : List Char → List (List Char)
  | [] => [[]]
  | c :: rest =>
    let r := pySplitChar sep rest
    if c = sep then [] :: r
    else
      match r with
      | [] => [[c]]
      | h :: t => (c :: h) :: t

/-- Python `str.title()` restricted to ASCII letters: the first letter of
every maximal letter run is upper-cased, the following letters are
lower-cased, all other characters are kept.  The boolean argument records
whether the previous character was a letter. -/
def pyTitleGo : Bool → List Char → List Char
  | _, [] => []
  | prevAlpha, c :: rest =>
    if c.isAlpha then
      (if prevAlpha then c.toLower else c.toUpper) :: pyTitleGo true rest
    else
      c :: pyTitleGo false rest

/-- Python `str.title()` on a list of characters. -/
def pyTitle (cs : List Char) : List Char :=
  pyTitleGo false cs

/-- `parse_ranks_str` (src/app/manage_db/taxonomy.py:36-40):
`[rank.strip().title() for rank in ranks_str.split(";")]`. -/
def parseRanksStr (s : String) : List String :=
  (pySplitChar ';' s.data).map (fun cs => String.mk (pyTitle (pyStripChars cs)))

/-- The lineage half of one line of `parse_taxonomy_file`
(src/app/manage_db/taxonomy.py:29-31):
`tuple(name.strip() for name in taxonomy_str.split(";"))`. -/
def parseLineageChars (cs : List Char) : List String :=
  (pySplitChar ';' cs).map (fun field => String.mk (pyStripChars field))

/-- Same splitting of a lineage string, starting from a `String`. -/
def parseLineage (s : String) : List String :=
  parseLineageChars s.data

/-- One line of `parse_taxonomy_file` (src/app/manage_db/taxonomy.py:27-31):
`genome_name, taxonomy_str = line.strip().split("\t")` followed by the
lineage split.  The two-name unpacking raises `ValueError` unless the
stripped line splits into exactly two tab-separated fields. -/
def parseTaxonomyLine (line : String) : Except String (String × List String) :=
  match pySplitChar '\t' (pyStripChars line.data) with
  | [g, tax] => .ok (String.mk g, parseLineageChars tax)
  | _ => .error "ValueError: not exactly two tab-separated fields"

/-! ### Data model

`Taxon` rows (src/app/models.py, class `Taxon`): `name`, `rank`, `depth`
plus the owning taxonomy source (modelled by its id).  SQLModel equality on
rows is value equality on the fields, which the repository's tests rely on
(`test_get_common_taxa` compares freshly built rows to rows from fixtures),
so `Taxon` derives `DecidableEq`.  The table of persisted taxa is a
`List Taxon`. -/

structure Taxon where
  name : String
  rank : String
  depth : Nat
  sourceId : Nat
deriving DecidableEq, Repr

/-- `get_taxa_by_depth` (src/app/manage_db/taxonomy.py:95-102): all taxa of
one taxonomy source at one depth. -/
def getTaxaByDepth (depth : Nat) (sourceId : Nat) (db : List Taxon) : List Taxon :=
  db.filter (fun t => t.depth = depth && t.sourceId = sourceId)

/-- The dict comprehension `{taxon.name: taxon for taxon in ...}` of
`create_taxon_from_lineages` (line 133-136) followed by a key lookup: when
several taxa share a name the last one wins, so the lookup searches the
reversed list. -/
def dictFind? (taxa : List Taxon) (name : String) : Option Taxon :=
  taxa.reverse.find? (fun t => t.name = name)

/-- Insertion-order deduplication, the model of accumulating values into a
Python `set`. -/
def dedupKeepFirst (xs : List String) : List String :=
  xs.foldl (fun acc n => if n ∈ acc then acc else acc ++ [n]) []

/-- The distinct taxon names occurring at depth `d` across all lineages of a
batch: the model of `taxon_names_by_depths[d]`
(src/app/manage_db/taxonomy.py:112-118). -/
def namesAt (lineages : List (List String)) (d : Nat) : List String :=
  dedupKeepFirst (lineages.filterMap (fun l => l[d]?))

/-- The resolve-or-create step of `create_taxon_from_lineages`
(lines 138-153) for one name at one depth: reuse the persisted taxon found
in the per-depth dict, otherwise construct a new row
`Taxon(name=taxon_name, rank=ranks[depth], depth=depth)` owned by the
source (the code assigns `taxonomy_source` to every new taxon before the
commit). -/
def resolveName (existing : List Taxon) (rank : String) (d : Nat) (sourceId : Nat)
    (name : String) : Taxon :=
  match dictFind? existing name with
  | some t => t
  | none => ⟨name, rank, d, sourceId⟩

/-- The new rows created at one depth: the names of the depth's set that the
per-depth dict does not know. -/
def newAtDepth (existing : List Taxon) (rank : String) (d : Nat) (sourceId : Nat)
    (names : List String) : List Taxon :=
  (names.filter (fun n => dictFind? existing n = none)).map
    (fun n => ⟨n, rank, d, sourceId⟩)

/-- The per-depth entries of the returned `name_to_taxon_by_depth` mapping
(`taxon_name_to_taxon`, lines 130-153). -/
def entriesAtDepth (existing : List Taxon) (rank : String) (d : Nat) (sourceId : Nat)
    (names : List String) : List (String × Taxon) :=
  names.map (fun n => (n, resolveName existing rank d sourceId n))

/-- The depth loop of `create_taxon_from_lineages`
(`for depth, taxon_set in enumerate(taxon_names_by_depths)`, lines
128-155), processing the remaining ranks from depth `d` on: per depth,
reuse the taxa already persisted for the source at that depth and create
the missing ones.  The queried table `db` is constant throughout the loop
(`session.add_all` runs once, after it).  Returns the per-depth dict
entries and the accumulated new rows. -/
def materializeDepths (lineages : List (List String)) (sourceId : Nat)
    (db : List Taxon) : List String → Nat →
    List (List (String × Taxon)) × List Taxon
  | [], _ => ([], [])
  | rank :: rest, d =>
    let existing := getTaxaByDepth d sourceId db
    let names := namesAt lineages d
    let next := materializeDepths lineages sourceId db rest (d + 1)
    (entriesAtDepth existing rank d sourceId names :: next.1,
     newAtDepth existing rank d sourceId names ++ next.2)

/-- `create_taxon_from_lineages` (src/app/manage_db/taxonomy.py:105-166).
Groups the rank values of all lineages by depth
(`taxon_names_by_depths[i].add(...)` raises `IndexError` when a lineage is
longer than the rank list), then runs the depth loop; the new rows are
appended to the table at the end (`session.add_all`), and the depth-indexed
name-to-taxon mapping is returned. -/
def createTaxonFromLineages (ranks : List String) (lineages : List (List String))
    (sourceId : Nat) (db : List Taxon) :
    Except String (List (List (String × Taxon)) × List Taxon) :=
  if lineages.all (fun l => l.length ≤ ranks.length) then
    let m := materializeDepths lineages sourceId db ranks 0
    .ok (m.1, db ++ m.2)
  else
    .error "IndexError: lineage longer than the rank list"

/-! ### Genome–taxon linker -/

/-- A row of the `GenomeTaxonLink` table (src/app/models.py:11-13), keyed by
the (genome, taxon) pair; the taxon is carried by value, standing for its
row id (the materializer keeps one row per value). -/
structure GenomeTaxonLink where
  genomeId : Nat
  taxon : Taxon
deriving DecidableEq, Repr

/-- Python dict key access `d[k]`, raising `KeyError` when absent (assoc
list, last binding wins). -/
def dictGet (entries : List (String × Taxon)) (name : String) : Except String Taxon :=
  match entries.reverse.find? (fun e => e.1 = name) with
  | some e => .ok e.2
  | none => .error "KeyError"

/-- Python list indexing `l[i]`, raising `IndexError` when out of range. -/
def listGet (l : List α) (i : Nat) : Except String α :=
  match l[i]? with
  | some x => .ok x
  | none => .error "IndexError"

/-- Python dict key access for the genome→lineage mapping. -/
def lineageGet (lineages : List (String × List String)) (name : String) :
    Except String (List String) :=
  match lineages.reverse.find? (fun e => e.1 = name) with
  | some e => .ok e.2
  | none => .error "KeyError"

/-- The inner loop `for depth, taxon_name in enumerate(lineage)` of
`link_genomes_and_taxa` (src/app/manage_db/taxonomy.py:196-202): one new
link per depth of the lineage, resolving each name through the depth-`d`
dict of `name_to_taxon_by_depth`; `d` is the enumeration counter. -/
def linkLineageDepths (taxonByDepth : List (List (String × Taxon)))
    (genomeId : Nat) : Nat → List String → Except String (List GenomeTaxonLink)
  | _, [] => .ok []
  | d, tname :: rest => do
    let entries ← listGet taxonByDepth d
    let taxon ← dictGet entries tname
    let more ← linkLineageDepths taxonByDepth genomeId (d + 1) rest
    .ok (⟨genomeId, taxon⟩ :: more)

/-- One iteration of the genome loop of `link_genomes_and_taxa`
(src/app/manage_db/taxonomy.py:184-204): fetch the genome's lineage, fetch
the depth-0 taxon (`lineage[0]` raises `IndexError` on an empty lineage),
probe the persisted link table for the (genome, depth-0 taxon) pair, and if
that single link is absent produce one new link per depth of the lineage;
otherwise produce none. -/
def linkOneGenome (lineages : List (String × List String))
    (taxonByDepth : List (List (String × Taxon))) (linkDb : List GenomeTaxonLink)
    (genomeName : String) (genomeId : Nat) : Except String (List GenomeTaxonLink) := do
  let lineage ← lineageGet lineages genomeName
  let name0 ← listGet lineage 0
  let entries0 ← listGet taxonByDepth 0
  let taxon0 ← dictGet entries0 name0
  if (⟨genomeId, taxon0⟩ : GenomeTaxonLink) ∈ linkDb then
    .ok []
  else
    linkLineageDepths taxonByDepth genomeId 0 lineage

/-- `link_genomes_and_taxa` (src/app/manage_db/taxonomy.py:169-217): the
loop body above for every genome, against the link table as it stood when
the run started (`session.add_all` happens once, after the loop); the
result is the list of new link rows to insert. -/
def linkGenomesAndTaxa : List (String × Nat) → List (String × List String) →
    List (List (String × Taxon)) → List GenomeTaxonLink →
    Except String (List GenomeTaxonLink)
  | [], _, _, _ => .ok []
  | (name, gid) :: rest, lineages, taxonByDepth, linkDb => do
    let links ← linkOneGenome lineages taxonByDepth linkDb name gid
    let more ← linkGenomesAndTaxa rest lineages taxonByDepth linkDb
    .ok (links ++ more)

/-! ### Pangenome common-ancestor resolver -/

/-- `get_common_taxa` (src/app/manage_db/taxonomy.py:85-92): the taxa of
`taxaA`, in order, that also occur in `taxaB` (membership is SQLModel value
equality). -/
def getCommonTaxa (taxaA taxaB : List Taxon) : List Taxon :=
  taxaA.filter (fun t => t ∈ taxaB)

/-- The filter `[taxon for taxon in genome.taxa if taxon.taxonomy_source ==
taxonomy_source]` of `link_pangenome_and_genome_taxa`
(src/pangbank_api/manage_db/collections.py:452-454). -/
def genomeTaxaFor (sourceId : Nat) (taxa : List Taxon) : List Taxon :=
  taxa.filter (fun t => t.sourceId = sourceId)

/-- The accumulation loop of `link_pangenome_and_genome_taxa`
(src/pangbank_api/manage_db/collections.py:451-458): seed the running set
with the first genome's source-filtered taxa whenever the running set is
empty (`if not pangenome_taxa`), otherwise intersect via `get_common_taxa`.
Each genome is represented by its full taxon list. -/
def pangenomeCommonTaxa (sourceId : Nat) (genomes : List (List Taxon)) : List Taxon :=
  genomes.foldl (fun acc gTaxa =>
    let gt := genomeTaxaFor sourceId gTaxa
    if acc.isEmpty then gt else getCommonTaxa gt acc) []

/-- A row of the `PangenomeTaxonLink` table
(src/pangbank_api/models.py:14-18). -/
structure PangenomeTaxonLink where
  pangenomeId : Nat
  taxon : Taxon
deriving DecidableEq, Repr

/-- `link_pangenome_and_genome_taxa`
(src/pangbank_api/manage_db/collections.py:443-463): the resolved common
taxa turned into persisted `PangenomeTaxonLink` rows. -/
def linkPangenomeAndGenomeTaxa (pangenomeId sourceId : Nat)
    (genomes : List (List Taxon)) : List PangenomeTaxonLink :=
  (pangenomeCommonTaxa sourceId genomes).map (fun t => ⟨pangenomeId, t⟩)

/-- The taxon chain a full lineage resolves to: the taxon at depth `d` is
named by the lineage's `d`-th entry and carries the `d`-th rank — what the
materializer produces (and the linker attaches) for one lineage. -/
def lineageChain (ranks lineage : List String) (sourceId : Nat) : List Taxon :=
  (ranks.zip lineage).enum.map (fun (d, p) => ⟨p.2, p.1, d, sourceId⟩)

/-- A taxon set forms a contiguous prefix of a rank chain when every depth
below the depth of any of its members is also populated. -/
def contiguousPrefixChain (taxa : List Taxon) : Bool :=
  taxa.all (fun t => (List.range t.depth).all (fun d => taxa.any (fun u => u.depth = d)))

/-! ### Taxonomy source creation -/

/-- A `TaxonomySource` row (src/app/models.py:42-55): `name`, `version` and
the raw semicolon-delimited `ranks` string; the `TaxonomySourceInput`
payload carries the same fields, so one structure serves both. -/
structure TaxonomySourceRec where
  name : String
  version : String
  ranks : String
deriving DecidableEq, Repr

/-- `create_taxonomy_source` (src/app/manage_db/taxonomy.py:43-82): look the
source up by (name, version); create and persist it when absent; when
present, raise `ValueError` unless the canonicalized rank lists
(`parse_ranks_str`) agree, and return the existing row unchanged. -/
def createTaxonomySource (input : TaxonomySourceRec) (db : List TaxonomySourceRec) :
    Except String (TaxonomySourceRec × List TaxonomySourceRec) :=
  match db.find? (fun ts => ts.name = input.name && ts.version = input.version) with
  | none => .ok (input, db ++ [input])
  | some ts =>
    if parseRanksStr ts.ranks = parseRanksStr input.ranks then
      .ok (ts, db)
    else
      .error "ValueError: Discrepancy in ranks for taxonomy_source"

/-! ### Dict-based taxon identity index (src/api_pangbank/taxonomy.py) -/

/-- A `Taxon` row as constructed by `create_and_get_taxa`
(src/api_pangbank/taxonomy.py:86): name, rank and depth; the taxonomy
source is attached later by the caller. -/
structure ATaxon where
  name : String
  rank : String
  depth : Nat
deriving DecidableEq, Repr

/-- `get_taxon_key` (src/api_pangbank/taxonomy.py:54-56):
`tuple((rank, name, depth))`. -/
def taxonKey (name rank : String) (depth : Nat) : String × String × Nat :=
  (rank, name, depth)

/-- The in-memory taxon index `taxon_dict`, keyed by `get_taxon_key`. -/
abbrev TaxonDict := List ((String × String × Nat) × ATaxon)

/-- `create_and_get_taxa` (src/api_pangbank/taxonomy.py:72-91): assert the
lineage is no longer than the rank list, then walk
`zip(ranks, lineage)` with its index; per step reuse the taxon registered
in the index under `(rank, name, depth)` or construct a new one and
register it; return the resolved taxa in lineage order together with the
updated index. -/
def createAndGetTaxa (lineage ranks : List String) (dict : TaxonDict) :
    Except String (List ATaxon × TaxonDict) :=
  if lineage.length ≤ ranks.length then
    .ok ((ranks.zip lineage).enum.foldl
      (fun acc p =>
        let key := taxonKey p.2.2 p.2.1 p.1
        match acc.2.find? (fun e => e.1 = key) with
        | some e => (acc.1 ++ [e.2], acc.2)
        | none =>
          let t : ATaxon := ⟨p.2.2, p.2.1, p.1⟩
          (acc.1 ++ [t], acc.2 ++ [(key, t)]))
      ([], dict))
  else
    .error "AssertionError: more lineage entries than ranks"

/-! ### Collection / release lifecycle -/

/-- A `CollectionRelease` row (src/pangbank_api/models.py:147-185) restricted
to the fields `create_collection_release` reads or writes: the owning
collection (by name), the release version, the two tool-version fields it
compares, the names of the linked genome metadata sources, and the `latest`
flag. -/
structure ReleaseRec where
  collectionName : String
  version : String
  ppanggolinVersion : String
  pangbankWfVersion : String
  metadataSources : List String
  latest : Bool
deriving DecidableEq, Repr

/-- The release payload of the ingestion input: version plus the immutable
tool-version fields. -/
structure ReleaseInput where
  version : String
  ppanggolinVersion : String
  pangbankWfVersion : String
deriving DecidableEq, Repr

/-- The database state `create_collection_release` touches: the collection
names and the release rows. -/
structure DbState where
  collections : List String
  releases : List ReleaseRec
deriving DecidableEq, Repr

/-- Python set equality of the metadata source name sets
(src/pangbank_api/manage_db/collections.py:109-113). -/
def listSetEq (a b : List String) : Bool :=
  a.all (fun x => b.contains x) && b.all (fun x => a.contains x)

/-- The index of the release `set_latest_release_in_collection`
(src/pangbank_api/manage_db/collections.py:138-152) marks as latest:
`sorted(collection.releases, key=parse(version), reverse=True)[0]`, i.e.
(by stability of Python's sort) the first release of the collection whose
version key is maximal among the collection's releases.  The semantic
version comparison of `packaging.version.parse` — declared out of scope by
the specification — is abstracted into the key function `verKey`. -/
def latestIdx (verKey : String → Nat) (collName : String) (rels : List ReleaseRec) :
    Option Nat :=
  (List.range rels.length).find? (fun i =>
    match rels[i]? with
    | some r =>
        r.collectionName == collName &&
        rels.all (fun r2 =>
          !(r2.collectionName == collName) ||
            decide (verKey r2.version ≤ verKey r.version))
    | none => false)

/-- `set_latest_release_in_collection`: set `latest := True` on the chosen
release of the collection and `latest := False` on the collection's other
releases; releases of other collections are untouched. -/
def setLatest (verKey : String → Nat) (collName : String) (rels : List ReleaseRec) :
    List ReleaseRec :=
  match latestIdx verKey collName rels with
  | none => rels
  | some j =>
    rels.enum.map (fun (i, r) =>
      if r.collectionName == collName then { r with latest := i == j } else r)

/-- The field names the consistency `ValueError` of
`create_collection_release` (src/pangbank_api/manage_db/collections.py:
120-126) mentions; its message names all three compared fields
unconditionally. -/
def consistencyErrorFields : List String :=
  ["ppanggolin_version", "pangbank_wf_version", "genome_metadata_sources"]

/-- `create_collection_release` (src/pangbank_api/manage_db/collections.py:
37-135).  Get-or-create the collection by name (created collections are
committed immediately); look the release up by (collection name, version);
when absent, build the release from the input, link the metadata sources,
persist it and recompute the latest flags; when present, compare
`ppanggolin_version`, `pangbank_wf_version` and the metadata source name
set, raising the consistency `ValueError` on any difference (the raise
leaves the session as committed so far) and otherwise returning the
existing row after the latest-flag pass.  The returned pair is (outcome,
database state when the function ends). -/
def createCollectionRelease (verKey : String → Nat) (collName : String)
    (inp : ReleaseInput) (metaSourceNames : List String) (st : DbState) :
    Except (List String) ReleaseRec × DbState :=
  let st1 : DbState :=
    if collName ∈ st.collections then st
    else { st with collections := st.collections ++ [collName] }
  match st1.releases.find?
      (fun r => r.collectionName == collName && r.version == inp.version) with
  | none =>
    let newRel : ReleaseRec :=
      { collectionName := collName, version := inp.version,
        ppanggolinVersion := inp.ppanggolinVersion,
        pangbankWfVersion := inp.pangbankWfVersion,
        metadataSources := metaSourceNames, latest := false }
    let rels := setLatest verKey collName (st1.releases ++ [newRel])
    match rels.find?
        (fun r => r.collectionName == collName && r.version == inp.version) with
    | some r => (.ok r, { st1 with releases := rels })
    | none => (.error [], { st1 with releases := rels })
  | some relFromDb =>
    if inp.ppanggolinVersion == relFromDb.ppanggolinVersion &&
       inp.pangbankWfVersion == relFromDb.pangbankWfVersion &&
       listSetEq metaSourceNames relFromDb.metadataSources then
      let rels := setLatest verKey collName st1.releases
      match rels.find?
          (fun r => r.collectionName == collName && r.version == inp.version) with
      | some r => (.ok r, { st1 with releases := rels })
      | none => (.error [], { st1 with releases := rels })
    else
      (.error consistencyErrorFields, st1)

/-! ### Helper lemmas -/

theorem except_bind_ok {ε α β : Type} (a : α) (f : α → Except ε β) :
    ((Except.ok a : Except ε α) >>= f) = f a := rfl

theorem except_bind_error {ε α β : Type} (e : ε) (f : α → Except ε β) :
    ((Except.error e : Except ε α) >>= f) = Except.error e := rfl

theorem listGet_nil {α : Type} (i : Nat) :
    listGet ([] : List α) i = .error "IndexError" := by
  cases i <;> rfl

theorem listGet_cons_zero {α : Type} (x : α) (xs : List α) :
    listGet (x :: xs) 0 = .ok x := by
  simp [listGet]

/-- Python's `str.split` never returns an empty list of fields. -/
theorem pySplitChar_ne_nil (sep : Char) : ∀ cs, pySplitChar sep cs ≠ [] := by
  intro cs
  cases cs with
  | nil => simp [pySplitChar]
  | cons c rest =>
    by_cases hc : c = sep <;> simp only [pySplitChar, hc, if_true, if_false]
    · simp
    · cases hsplit : pySplitChar sep rest <;> simp

theorem find?_eq_some_of_unique {α : Type} (p : α → Bool) (v : α) :
    ∀ (l : List α), (∃ x ∈ l, p x = true) → (∀ x ∈ l, p x = true → x = v) →
      l.find? p = some v := by
  intro l
  induction l with
  | nil => rintro ⟨x, hx, _⟩ _; cases hx
  | cons a t ih =>
    intro hex huniq
    rw [List.find?_cons]
    cases hpa : p a with
    | true => exact congrArg some (huniq a (List.mem_cons_self a t) hpa)
    | false =>
      obtain ⟨x, hx, hpx⟩ := hex
      rcases List.mem_cons.mp hx with rfl | hxt
      · rw [hpa] at hpx; cases hpx
      · exact ih ⟨x, hxt, hpx⟩ (fun y hy hpy => huniq y (List.mem_cons_of_mem a hy) hpy)

theorem dictFind?_append_some (a b : List Taxon) (n : String) (t : Taxon)
    (h : dictFind? b n = some t) : dictFind? (a ++ b) n = some t := by
  rw [dictFind?] at h ⊢
  rw [List.reverse_append, List.find?_append, h]
  rfl

theorem dictFind?_append_none (a b : List Taxon) (n : String)
    (h : dictFind? b n = none) : dictFind? (a ++ b) n = dictFind? a n := by
  rw [dictFind?] at h ⊢
  rw [List.reverse_append, List.find?_append, h, dictFind?]
  rfl

theorem dictFind?_mem_name (l : List Taxon) (n : String) (t : Taxon)
    (h : dictFind? l n = some t) : t ∈ l ∧ t.name = n := by
  rw [dictFind?] at h
  refine ⟨List.mem_reverse.mp (List.mem_of_find?_eq_some h), ?_⟩
  simpa using List.find?_some h

/-- Every taxon of a depth's new block is the freshly constructed row for a
name of the depth's set that the per-depth dict does not know. -/
theorem mem_newAtDepth {existing : List Taxon} {rank : String} {d sourceId : Nat}
    {names : List String} {t : Taxon} :
    t ∈ newAtDepth existing rank d sourceId names ↔
      ∃ n, (n ∈ names ∧ dictFind? existing n = none) ∧
        Taxon.mk n rank d sourceId = t := by
  simp [newAtDepth]

/-- The new block of a depth answers a dict lookup for any of its names
with the freshly constructed row. -/
theorem dictFind?_newAtDepth_self (existing : List Taxon) (rank : String)
    (d sourceId : Nat) (names : List String) (n : String) (hn : n ∈ names)
    (hnone : dictFind? existing n = none) :
    dictFind? (newAtDepth existing rank d sourceId names) n =
      some ⟨n, rank, d, sourceId⟩ := by
  rw [dictFind?]
  apply find?_eq_some_of_unique
  · refine ⟨⟨n, rank, d, sourceId⟩, ?_, by simp⟩
    rw [List.mem_reverse]
    exact mem_newAtDepth.mpr ⟨n, ⟨hn, hnone⟩, rfl⟩
  · intro x hx hpx
    obtain ⟨m, _, hxm⟩ := mem_newAtDepth.mp (List.mem_reverse.mp hx)
    have hname : x.name = n := by simpa using hpx
    rw [← hxm] at hname ⊢
    simp at hname
    rw [hname]

/-- Resolving a name of the depth's set against the table extended by the
depth's own new block gives the same taxon as resolving it against the
original table. -/
theorem resolveName_append_new (existing : List Taxon) (rank : String)
    (d sourceId : Nat) (names : List String) (n : String) (hn : n ∈ names) :
    resolveName (existing ++ newAtDepth existing rank d sourceId names)
      rank d sourceId n = resolveName existing rank d sourceId n := by
  cases hfind : dictFind? existing n with
  | some t =>
    have hBnone : dictFind? (newAtDepth existing rank d sourceId names) n = none := by
      cases hBf : dictFind? (newAtDepth existing rank d sourceId names) n with
      | none => rfl
      | some u =>
        obtain ⟨humem, huname⟩ := dictFind?_mem_name _ _ _ hBf
        obtain ⟨m, ⟨_, hmnone⟩, hu⟩ := mem_newAtDepth.mp humem
        rw [← hu] at huname
        simp at huname
        rw [huname] at hmnone
        rw [hfind] at hmnone
        cases hmnone
    rw [resolveName, resolveName, dictFind?_append_none _ _ _ hBnone]
  | none =>
    rw [resolveName, resolveName,
      dictFind?_append_some _ _ _ _ (dictFind?_newAtDepth_self existing rank d
        sourceId names n hn hfind), hfind]

/-- After appending the depth's new block, no name of the depth's set is
missing any more: the second run creates nothing at this depth. -/
theorem newAtDepth_append_new (existing : List Taxon) (rank : String)
    (d sourceId : Nat) (names : List String) :
    newAtDepth (existing ++ newAtDepth existing rank d sourceId names)
      rank d sourceId names = [] := by
  rw [newAtDepth]
  have hfil : names.filter (fun n =>
      dictFind? (existing ++ newAtDepth existing rank d sourceId names) n = none) = [] := by
    apply List.filter_eq_nil_iff.mpr
    intro n hn
    cases hfind : dictFind? existing n with
    | some t =>
      cases hBf : dictFind? (newAtDepth existing rank d sourceId names) n with
      | some u => simp [dictFind?_append_some _ _ _ _ hBf]
      | none => simp [dictFind?_append_none _ _ _ hBf, hfind]
    | none =>
      simp [dictFind?_append_some _ _ _ _
        (dictFind?_newAtDepth_self existing rank d sourceId names n hn hfind)]
  rw [hfil]
  rfl

/-- The per-depth dict entries are unchanged by appending the depth's own
new block. -/
theorem entriesAtDepth_append_new (existing : List Taxon) (rank : String)
    (d sourceId : Nat) (names : List String) :
    entriesAtDepth (existing ++ newAtDepth existing rank d sourceId names)
      rank d sourceId names = entriesAtDepth existing rank d sourceId names := by
  rw [entriesAtDepth, entriesAtDepth]
  exact List.map_congr_left (fun n hn => by
    rw [resolveName_append_new existing rank d sourceId names n hn])

theorem getTaxaByDepth_append (d sourceId : Nat) (a b : List Taxon) :
    getTaxaByDepth d sourceId (a ++ b) =
      getTaxaByDepth d sourceId a ++ getTaxaByDepth d sourceId b :=
  List.filter_append a b

theorem getTaxaByDepth_newAtDepth_self (existing : List Taxon) (rank : String)
    (d sourceId : Nat) (names : List String) :
    getTaxaByDepth d sourceId (newAtDepth existing rank d sourceId names) =
      newAtDepth existing rank d sourceId names := by
  apply List.filter_eq_self.mpr
  intro t ht
  obtain ⟨n, _, hn⟩ := mem_newAtDepth.mp ht
  rw [← hn]
  simp

theorem getTaxaByDepth_newAtDepth_ne (existing : List Taxon) (rank : String)
    (k d sourceId : Nat) (names : List String) (h : k ≠ d) :
    getTaxaByDepth d sourceId (newAtDepth existing rank k sourceId names) = [] := by
  apply List.filter_eq_nil_iff.mpr
  intro t ht
  obtain ⟨n, _, hn⟩ := mem_newAtDepth.mp ht
  rw [← hn]
  simp
  omega

/-- The taxa of one source at depth `d` among the rows the depth loop
creates while processing the rank suffix starting at depth `k`: exactly the
new block of depth `d` (against the original table) when `d` falls inside
the processed range, nothing otherwise. -/
theorem getTaxaByDepth_materialize_news (lineages : List (List String))
    (sourceId : Nat) (db : List Taxon) (d : Nat) :
    ∀ (suffix : List String) (k : Nat),
      getTaxaByDepth d sourceId (materializeDepths lineages sourceId db suffix k).2 =
      if k ≤ d then
        (match suffix[d - k]? with
         | some rank =>
           newAtDepth (getTaxaByDepth d sourceId db) rank d sourceId
             (namesAt lineages d)
         | none => [])
      else [] := by
  intro suffix
  induction suffix with
  | nil =>
    intro k
    simp [materializeDepths, getTaxaByDepth]
  | cons rank rest ih =>
    intro k
    rw [materializeDepths]
    rw [getTaxaByDepth_append, ih (k + 1)]
    by_cases hkd : k = d
    · subst hkd
      rw [getTaxaByDepth_newAtDepth_self, if_neg (by omega),
        if_pos (Nat.le_refl k), List.append_nil, Nat.sub_self]
      simp
    · rw [getTaxaByDepth_newAtDepth_ne _ _ _ _ _ _ hkd, List.nil_append]
      by_cases hk1 : k + 1 ≤ d
      · rw [if_pos hk1, if_pos (by omega)]
        have hidx : d - k = (d - (k + 1)) + 1 := by omega
        rw [hidx]
        simp
      · rw [if_neg hk1, if_neg (by omega)]

/-- Re-running the depth loop over the table extended by everything a first
run created (on the same rank list and lineage set) returns the first run's
per-depth dicts and creates nothing. -/
theorem materializeDepths_rerun (lineages : List (List String)) (sourceId : Nat)
    (db : List Taxon) (ranks : List String) :
    ∀ (suffix : List String) (k : Nat), ranks.drop k = suffix →
      materializeDepths lineages sourceId
        (db ++ (materializeDepths lineages sourceId db ranks 0).2) suffix k =
      ((materializeDepths lineages sourceId db suffix k).1, []) := by
  intro suffix
  induction suffix with
  | nil => intro k _; rfl
  | cons rank rest ih =>
    intro k hdrop
    have hget : ranks[k]? = some rank := by
      have h0 : (ranks.drop k)[0]? = some rank := by rw [hdrop]; simp
      rwa [List.getElem?_drop, Nat.add_zero] at h0
    have hdrop1 : ranks.drop (k + 1) = rest := by
      rw [← List.tail_drop, hdrop, List.tail_cons]
    have hblock : getTaxaByDepth k sourceId
        (materializeDepths lineages sourceId db ranks 0).2 =
        newAtDepth (getTaxaByDepth k sourceId db) rank k sourceId
          (namesAt lineages k) := by
      rw [getTaxaByDepth_materialize_news lineages sourceId db k ranks 0,
        if_pos (Nat.zero_le k), Nat.sub_zero, hget]
    rw [materializeDepths, materializeDepths]
    show (entriesAtDepth (getTaxaByDepth k sourceId
        (db ++ (materializeDepths lineages sourceId db ranks 0).2)) rank k sourceId
        (namesAt lineages k) :: _,
      newAtDepth (getTaxaByDepth k sourceId
        (db ++ (materializeDepths lineages sourceId db ranks 0).2)) rank k sourceId
        (namesAt lineages k) ++ _) = _
    rw [getTaxaByDepth_append, hblock, entriesAtDepth_append_new,
      newAtDepth_append_new, List.nil_append, ih (k + 1) hdrop1]

/-- Every row the depth loop creates while processing the rank suffix
starting at depth `k` carries the rank stored at its depth in the full rank
list, a depth inside the rank list, and the batch's taxonomy source. -/
theorem materializeDepths_news_rank (lineages : List (List String))
    (sourceId : Nat) (db : List Taxon) (ranks : List String) :
    ∀ (suffix : List String) (k : Nat), ranks.drop k = suffix →
      ∀ t ∈ (materializeDepths lineages sourceId db suffix k).2,
        t.depth < ranks.length ∧ ranks[t.depth]? = some t.rank ∧
          t.sourceId = sourceId := by
  intro suffix
  induction suffix with
  | nil => intro k _ t ht; cases ht
  | cons rank rest ih =>
    intro k hdrop t ht
    have hget : ranks[k]? = some rank := by
      have h0 : (ranks.drop k)[0]? = some rank := by rw [hdrop]; simp
      rwa [List.getElem?_drop, Nat.add_zero] at h0
    have hdrop1 : ranks.drop (k + 1) = rest := by
      rw [← List.tail_drop, hdrop, List.tail_cons]
    rw [materializeDepths] at ht
    rcases List.mem_append.mp ht with hblk | hrest
    · obtain ⟨n, _, hn⟩ := mem_newAtDepth.mp hblk
      rw [← hn]
      refine ⟨?_, by simpa using hget, rfl⟩
      show k < ranks.length
      by_contra hk
      rw [List.getElem?_eq_none (by omega)] at hget
      cases hget
    · exact ih (k + 1) hdrop1 t hrest

theorem getCommonTaxa_self (L : List Taxon) : getCommonTaxa L L = L := by
  rw [getCommonTaxa]
  exact List.filter_eq_self.mpr (fun a ha => by simpa using ha)

/-- The resolver's fold stays at `L` when every genome's source-filtered
taxon list is `L` and the accumulator is either unseeded or already `L`. -/
theorem pangenomeCommonTaxa_const (sourceId : Nat) (L : List Taxon) :
    ∀ (gs : List (List Taxon)) (acc : List Taxon),
      (∀ g ∈ gs, genomeTaxaFor sourceId g = L) → (acc = [] ∨ acc = L) → gs ≠ [] →
      List.foldl (fun acc gTaxa =>
        let gt := genomeTaxaFor sourceId gTaxa
        if acc.isEmpty then gt else getCommonTaxa gt acc) acc gs = L := by
  intro gs
  induction gs with
  | nil => exact fun acc _ _ hne => absurd rfl hne
  | cons g rest ih =>
    intro acc hsame hacc _
    rw [List.foldl_cons]
    have hg := hsame g (List.mem_cons_self g rest)
    have hstep : (let gt := genomeTaxaFor sourceId g
        if acc.isEmpty then gt else getCommonTaxa gt acc) = L := by
      show (if acc.isEmpty then genomeTaxaFor sourceId g
        else getCommonTaxa (genomeTaxaFor sourceId g) acc) = L
      rcases hacc with rfl | rfl
      · simpa using hg
      · by_cases hL : acc.isEmpty = true
        · rw [if_pos hL, hg]
        · rw [if_neg hL, hg, getCommonTaxa_self]
    rw [hstep]
    cases rest with
    | nil => simp
    | cons r rs =>
      exact ih _ (fun g' hm => hsame g' (List.mem_cons_of_mem _ hm))
        (Or.inr rfl) (by simp)

/-- A genome that produced links (or none) against `db` produces no links
at all against any table `db2` that contains both `db` and its produced
links: its depth-0 link is found there. -/
theorem linkOneGenome_skip (lineages : List (String × List String))
    (tbd : List (List (String × Taxon))) (db db2 : List GenomeTaxonLink)
    (name : String) (gid : Nat) (ls : List GenomeTaxonLink)
    (h : linkOneGenome lineages tbd db name gid = .ok ls)
    (hdb : ∀ l ∈ db, l ∈ db2) (hls : ∀ l ∈ ls, l ∈ db2) :
    linkOneGenome lineages tbd db2 name gid = .ok [] := by
  cases h1 : lineageGet lineages name with
  | error e => simp [linkOneGenome, h1, except_bind_error] at h
  | ok lineage =>
    cases lineage with
    | nil => simp [linkOneGenome, h1, listGet_nil, except_bind_ok, except_bind_error] at h
    | cons x xs =>
      cases h3 : listGet tbd 0 with
      | error e => simp [linkOneGenome, h1, listGet_cons_zero, h3, except_bind_ok, except_bind_error] at h
      | ok entries0 =>
        cases h4 : dictGet entries0 x with
        | error e => simp [linkOneGenome, h1, listGet_cons_zero, h3, h4, except_bind_ok, except_bind_error] at h
        | ok taxon0 =>
          by_cases hmem : (⟨gid, taxon0⟩ : GenomeTaxonLink) ∈ db
          · have hmem2 : (⟨gid, taxon0⟩ : GenomeTaxonLink) ∈ db2 := hdb _ hmem
            simp [linkOneGenome, h1, listGet_cons_zero, h3, h4, hmem2, except_bind_ok]
          · have hrest : linkLineageDepths tbd gid 0 (x :: xs) = .ok ls := by
              simpa [linkOneGenome, h1, listGet_cons_zero, h3, h4, hmem, except_bind_ok] using h
            rw [linkLineageDepths] at hrest
            simp only [h3, h4, except_bind_ok] at hrest
            cases h5 : linkLineageDepths tbd gid 1 xs with
            | error e => simp [h5, except_bind_error] at hrest
            | ok more =>
              rw [h5] at hrest
              simp only [except_bind_ok] at hrest
              have hhead : (⟨gid, taxon0⟩ : GenomeTaxonLink) ∈ ls := by
                cases hrest
                exact List.mem_cons_self _ _
              have hmem2 : (⟨gid, taxon0⟩ : GenomeTaxonLink) ∈ db2 := hls _ hhead
              simp [linkOneGenome, h1, listGet_cons_zero, h3, h4, hmem2, except_bind_ok]

/-- Monotone rerun: a run of the genome linker that produced `ns` against
`db` produces nothing against any table containing `db` and `ns`. -/
theorem linkGenomesAndTaxa_mono :
    ∀ (genomes : List (String × Nat)) (lineages : List (String × List String))
      (tbd : List (List (String × Taxon))) (db db2 : List GenomeTaxonLink)
      (ns : List GenomeTaxonLink),
      linkGenomesAndTaxa genomes lineages tbd db = .ok ns →
      (∀ l ∈ db, l ∈ db2) → (∀ l ∈ ns, l ∈ db2) →
      linkGenomesAndTaxa genomes lineages tbd db2 = .ok [] := by
  intro genomes
  induction genomes with
  | nil => intro _ _ _ _ _ _ _ _; rfl
  | cons g rest ih =>
    intro lineages tbd db db2 ns h hdb hns
    obtain ⟨name, gid⟩ := g
    cases h1 : linkOneGenome lineages tbd db name gid with
    | error e => simp [linkGenomesAndTaxa, h1, except_bind_error] at h
    | ok ls =>
      cases h2 : linkGenomesAndTaxa rest lineages tbd db with
      | error e => simp [linkGenomesAndTaxa, h1, h2, except_bind_ok, except_bind_error] at h
      | ok ms =>
        have hins : ls ++ ms = ns := by
          simpa [linkGenomesAndTaxa, h1, h2, except_bind_ok] using h
        have hskip := linkOneGenome_skip lineages tbd db db2 name gid ls h1 hdb
          (fun l hl => hns l (hins ▸ List.mem_append_left ms hl))
        have hrest := ih lineages tbd db db2 ms h2 hdb
          (fun l hl => hns l (hins ▸ List.mem_append_right ls hl))
        simp [linkGenomesAndTaxa, hskip, hrest, except_bind_ok]

/-! ### Theorems -/

/-- C8: Lineage parsing trims whitespace: the lineage string `"A; B ;C"` is
split on `";"`, the whitespace around every rank name is stripped, and the
root-to-leaf order is preserved, yielding exactly `("A", "B", "C")` — both
for the bare lineage split and for a full genome↦lineage line of the bulk
table. -/
theorem parseLineage_trims_whitespace :
    parseLineage "A; B ;C" = ["A", "B", "C"] ∧
    parseTaxonomyLine "g1\tA; B ;C" = .ok ("g1", ["A", "B", "C"]) := by
  constructor <;> rfl

/-- C2: Common-ancestor correctness on the divergent-species example: for a
pangenome whose member genomes carry the resolved taxa of the lineages
`("D1","P1","S1a")` and `("D1","P1","S1b")` under one taxonomy source, the
resolver persists exactly the two links for the taxa `D1` and `P1` —
neither three taxa nor none. -/
theorem commonAncestor_divergent_species_example :
    linkPangenomeAndGenomeTaxa 5 1
      [[⟨"D1", "Domain", 0, 1⟩, ⟨"P1", "Phylum", 1, 1⟩, ⟨"S1a", "Species", 2, 1⟩],
       [⟨"D1", "Domain", 0, 1⟩, ⟨"P1", "Phylum", 1, 1⟩, ⟨"S1b", "Species", 2, 1⟩]] =
      [⟨5, ⟨"D1", "Domain", 0, 1⟩⟩, ⟨5, ⟨"P1", "Phylum", 1, 1⟩⟩] := by
  decide

/-- C6: TaxonomySource rank-list immutability: when a source with the
input's (name, version) already exists, re-ingesting it with a rank list
that differs after canonicalization raises an error, and re-ingesting it
with a rank list equal after canonicalization returns the existing source
with the database unchanged. -/
theorem createTaxonomySource_rank_immutability
    (db : List TaxonomySourceRec) (input ts : TaxonomySourceRec)
    (hfound : db.find? (fun s => s.name = input.name && s.version = input.version) =
      some ts) :
    (parseRanksStr ts.ranks ≠ parseRanksStr input.ranks →
      createTaxonomySource input db =
        .error "ValueError: Discrepancy in ranks for taxonomy_source") ∧
    (parseRanksStr ts.ranks = parseRanksStr input.ranks →
      createTaxonomySource input db = .ok (ts, db)) := by
  constructor <;> intro hranks <;> simp [createTaxonomySource, hfound, hranks]

/-- C6 witness: the `("GTDB","24.1")` source created with ranks
`"Domain;Phylum"`: re-ingestion with ranks `"Domain;Class"` errors, while
re-ingestion with ranks `" domain ;PHYLUM"` (equal after strip-and-title
canonicalization) returns the existing row and leaves the table unchanged. -/
theorem createTaxonomySource_rank_immutability_check :
    createTaxonomySource ⟨"GTDB", "24.1", "Domain;Class"⟩
        [⟨"GTDB", "24.1", "Domain;Phylum"⟩] =
      .error "ValueError: Discrepancy in ranks for taxonomy_source" ∧
    createTaxonomySource ⟨"GTDB", "24.1", " domain ;PHYLUM"⟩
        [⟨"GTDB", "24.1", "Domain;Phylum"⟩] =
      .ok (⟨"GTDB", "24.1", "Domain;Phylum"⟩, [⟨"GTDB", "24.1", "Domain;Phylum"⟩]) :=
  ⟨(createTaxonomySource_rank_immutability
      [⟨"GTDB", "24.1", "Domain;Phylum"⟩] ⟨"GTDB", "24.1", "Domain;Class"⟩
      ⟨"GTDB", "24.1", "Domain;Phylum"⟩ (by decide)).1 (by decide),
   (createTaxonomySource_rank_immutability
      [⟨"GTDB", "24.1", "Domain;Phylum"⟩] ⟨"GTDB", "24.1", " domain ;PHYLUM"⟩
      ⟨"GTDB", "24.1", "Domain;Phylum"⟩ (by decide)).2 (by decide)⟩

/-- C3: Resolver boundary guarantees: over zero genomes the resolver yields
the empty representative taxon set, and when every member genome's
source-filtered taxon set is the full chain resolved from one shared
lineage, the representative set equals that full chain — all of its taxa,
no more, no fewer. -/
theorem pangenomeResolver_boundary_cases (sourceId : Nat)
    (ranks lineage : List String) (genomes : List (List Taxon))
    (hne : genomes ≠ [])
    (hsame : ∀ g ∈ genomes,
      genomeTaxaFor sourceId g = lineageChain ranks lineage sourceId) :
    pangenomeCommonTaxa sourceId [] = [] ∧
    pangenomeCommonTaxa sourceId genomes = lineageChain ranks lineage sourceId :=
  ⟨rfl, pangenomeCommonTaxa_const sourceId _ genomes [] hsame (Or.inl rfl) hne⟩

/-- C3 witness: two genomes sharing the full lineage
`("D1","P1","S1")` under a three-rank source resolve to exactly that
three-taxon chain, and zero genomes resolve to the empty set. -/
theorem pangenomeResolver_boundary_cases_check :
    pangenomeCommonTaxa 1 [] = [] ∧
    pangenomeCommonTaxa 1
      [lineageChain ["Domain", "Phylum", "Species"] ["D1", "P1", "S1"] 1,
       lineageChain ["Domain", "Phylum", "Species"] ["D1", "P1", "S1"] 1] =
      lineageChain ["Domain", "Phylum", "Species"] ["D1", "P1", "S1"] 1 :=
  pangenomeResolver_boundary_cases 1 ["Domain", "Phylum", "Species"]
    ["D1", "P1", "S1"] _ (by decide) (by decide)

/-- C4 counterexample: the claimed representative-taxonomy invariant fails
on the code.  Contiguity: two genomes whose taxon sets are contiguous
depth-0..1 chains `[D1, S1]` and `[D2, S1]` (the species name `S1` recurs
at depth 1 under two different domains, so the depth-qualified identity key
unifies it) resolve to the single depth-1 taxon `[S1]`, which is not a
contiguous prefix.  Subset: three pairwise divergent one-taxon chains
`[A]`, `[B]`, `[C]` resolve to `[C]` (the emptied running intersection is
re-seeded by the `if not pangenome_taxa` test), and `C` is not in the first
member's taxon set. -/
theorem representative_invariant_counterexample :
    (contiguousPrefixChain [⟨"D1", "Domain", 0, 1⟩, ⟨"S1", "Species", 1, 1⟩] = true ∧
     contiguousPrefixChain [⟨"D2", "Domain", 0, 1⟩, ⟨"S1", "Species", 1, 1⟩] = true ∧
     pangenomeCommonTaxa 1
       [[⟨"D1", "Domain", 0, 1⟩, ⟨"S1", "Species", 1, 1⟩],
        [⟨"D2", "Domain", 0, 1⟩, ⟨"S1", "Species", 1, 1⟩]] =
       [⟨"S1", "Species", 1, 1⟩] ∧
     contiguousPrefixChain [⟨"S1", "Species", 1, 1⟩] = false) ∧
    (pangenomeCommonTaxa 1
       [[⟨"A", "Domain", 0, 1⟩], [⟨"B", "Domain", 0, 1⟩], [⟨"C", "Domain", 0, 1⟩]] =
       [⟨"C", "Domain", 0, 1⟩] ∧
     (⟨"C", "Domain", 0, 1⟩ : Taxon) ∉ [(⟨"A", "Domain", 0, 1⟩ : Taxon)]) := by
  decide

/-- C4 amended: the representative-taxon set the resolver computes is
always a subset of the source-filtered taxon set of the last member genome
processed (and is empty for zero genomes); it need not be a contiguous
prefix of a rank chain, and need not be a subset of every member genome's
taxon set, even when every member's taxon set is a contiguous depth-0..k
chain. -/
theorem representative_subset_of_last_genome (sourceId : Nat)
    (gs : List (List Taxon)) (g : List Taxon) :
    pangenomeCommonTaxa sourceId [] = [] ∧
    pangenomeCommonTaxa sourceId (gs ++ [g]) ⊆ genomeTaxaFor sourceId g := by
  refine ⟨rfl, ?_⟩
  rw [pangenomeCommonTaxa, List.foldl_append]
  simp only [List.foldl_cons, List.foldl_nil]
  simp only [getCommonTaxa]
  split
  · exact List.Subset.refl _
  · intro a ha
    exact (List.mem_filter.mp ha).1

/-- C5 counterexample: the linker does not decide "already attached" per
depth — it probes the persisted table only for the depth-0 link.  With the
table already holding the (genome, depth-1 taxon) link but not the depth-0
one, the run emits links for both depths, and the emitted depth-1 link is
already in the table: a duplicate (genome, taxon) link is attempted. -/
theorem linker_duplicate_link_counterexample :
    linkGenomesAndTaxa [("g", 7)] [("g", ["D1", "P1"])]
      [[("D1", ⟨"D1", "Domain", 0, 1⟩)], [("P1", ⟨"P1", "Phylum", 1, 1⟩)]]
      [⟨7, ⟨"P1", "Phylum", 1, 1⟩⟩] =
      .ok [⟨7, ⟨"D1", "Domain", 0, 1⟩⟩, ⟨7, ⟨"P1", "Phylum", 1, 1⟩⟩] ∧
    (⟨7, ⟨"P1", "Phylum", 1, 1⟩⟩ : GenomeTaxonLink) ∈
      [(⟨7, ⟨"P1", "Phylum", 1, 1⟩⟩ : GenomeTaxonLink)] := by
  exact ⟨rfl, by decide⟩

/-- C5 amended: the linker decides per genome, by a persisted lookup of the
(genome, depth-0 taxon) link alone, and skips the whole genome when that
link exists; consequently re-running it with the same genome→lineage
mapping against the table already containing everything a previous
identical run inserted emits zero new `GenomeTaxonLink` rows.  (The
per-depth claim fails: against a table holding a deeper link but not the
depth-0 one, the linker re-emits the deeper link.) -/
theorem linkGenomesAndTaxa_rerun_adds_nothing (genomes : List (String × Nat))
    (lineages : List (String × List String))
    (tbd : List (List (String × Taxon))) (linkDb newLinks : List GenomeTaxonLink)
    (h : linkGenomesAndTaxa genomes lineages tbd linkDb = .ok newLinks) :
    linkGenomesAndTaxa genomes lineages tbd (linkDb ++ newLinks) = .ok [] :=
  linkGenomesAndTaxa_mono genomes lineages tbd linkDb (linkDb ++ newLinks) newLinks h
    (fun _ hl => List.mem_append_left _ hl) (fun _ hl => List.mem_append_right _ hl)

/-- C5 witness: a first run over an empty link table inserts the two links
of the lineage `("D1","P1")`; the rerun against the populated table inserts
nothing. -/
theorem linkGenomesAndTaxa_rerun_adds_nothing_check :
    linkGenomesAndTaxa [("g", 7)] [("g", ["D1", "P1"])]
      [[("D1", ⟨"D1", "Domain", 0, 1⟩)], [("P1", ⟨"P1", "Phylum", 1, 1⟩)]]
      ([] ++ [⟨7, ⟨"D1", "Domain", 0, 1⟩⟩, ⟨7, ⟨"P1", "Phylum", 1, 1⟩⟩]) = .ok [] :=
  linkGenomesAndTaxa_rerun_adds_nothing [("g", 7)] [("g", ["D1", "P1"])]
    [[("D1", ⟨"D1", "Domain", 0, 1⟩)], [("P1", ⟨"P1", "Phylum", 1, 1⟩)]] []
    [⟨7, ⟨"D1", "Domain", 0, 1⟩⟩, ⟨7, ⟨"P1", "Phylum", 1, 1⟩⟩] rfl

/-- C9 counterexample: the empty-lineage edge case fails on the code.  A
bulk-table line whose lineage field is empty does not parse to an empty
tuple — `line.strip()` eats the trailing tab and the two-field unpacking
raises `ValueError`; and the linker, given a genome with a zero-rank
lineage, raises `IndexError` at `lineage[0]` instead of linking the genome
with no taxa. -/
theorem empty_lineage_counterexample :
    parseTaxonomyLine "g1\t" =
      .error "ValueError: not exactly two tab-separated fields" ∧
    linkGenomesAndTaxa [("g1", 1)] [("g1", [])]
      [[("D1", ⟨"D1", "Domain", 0, 1⟩)]] [] = .error "IndexError" := by
  constructor <;> rfl

/-- C9 amended: an empty lineage (zero ranks) is not accepted: the bulk
lineage parser can never yield a zero-rank lineage (splitting on `";"`
always yields at least one field, and a line with an empty lineage field
fails the two-field unpacking), and the linker fails with an index error on
a zero-rank lineage instead of linking the genome to the root with no
taxa. -/
theorem empty_lineage_rejected :
    (∀ (line g : String) (lin : List String),
      parseTaxonomyLine line = .ok (g, lin) → lin ≠ []) ∧
    linkGenomesAndTaxa [("g1", 1)] [("g1", [])]
      [[("D1", ⟨"D1", "Domain", 0, 1⟩)]] [] = .error "IndexError" := by
  constructor
  · intro line g lin h
    rw [parseTaxonomyLine] at h
    split at h
    · cases h
      simp only [parseLineageChars, ne_eq, List.map_eq_nil_iff]
      exact pySplitChar_ne_nil ';' _
    · cases h
  · rfl

/-- C9 witness: the parse of the line `"g1\tA"` succeeds with the one-rank
lineage `["A"]`, which the amended theorem shows cannot be empty. -/
theorem empty_lineage_rejected_check : (["A"] : List String) ≠ [] :=
  empty_lineage_rejected.1 "g1\tA" "g1" ["A"] rfl

/-- C1: Taxon identity is idempotent: when a materializer run over one
taxonomy source succeeds with the name-to-taxon mapping `nameMap` and the
taxon table `db2`, running it again with an equal (rank list, lineage set)
over the resulting table returns the very same mapping — every
`(rank, name, depth)` key resolves to the same taxon entity both times,
within the batch (one mapping serves all lineages) and across the imports —
and the table is unchanged, so the taxon row count after the second
identical ingestion equals the count after the first. -/
theorem createTaxonFromLineages_idempotent (ranks : List String)
    (lineages : List (List String)) (sourceId : Nat) (db : List Taxon)
    (nameMap : List (List (String × Taxon))) (db2 : List Taxon)
    (h : createTaxonFromLineages ranks lineages sourceId db = .ok (nameMap, db2)) :
    createTaxonFromLineages ranks lineages sourceId db2 = .ok (nameMap, db2) := by
  rw [createTaxonFromLineages] at h ⊢
  by_cases hguard : lineages.all (fun l => l.length ≤ ranks.length)
  · rw [if_pos hguard] at h ⊢
    have hmap : (materializeDepths lineages sourceId db ranks 0).1 = nameMap ∧
        db ++ (materializeDepths lineages sourceId db ranks 0).2 = db2 := by
      cases h
      exact ⟨rfl, rfl⟩
    obtain ⟨hmap1, hdb2⟩ := hmap
    rw [← hdb2, materializeDepths_rerun lineages sourceId db ranks ranks 0 rfl,
      hmap1]
    simp
  · rw [if_neg hguard] at h
    cases h

/-- C1 witness: materializing the lineage set
`{("D1","P1","S1a"), ("D1","P1","S1b")}` over an empty table yields four
taxon rows; the second identical run returns the same mapping and the same
four rows. -/
theorem createTaxonFromLineages_idempotent_check :
    createTaxonFromLineages ["Domain", "Phylum", "Species"]
      [["D1", "P1", "S1a"], ["D1", "P1", "S1b"]] 1
      [⟨"D1", "Domain", 0, 1⟩, ⟨"P1", "Phylum", 1, 1⟩,
       ⟨"S1a", "Species", 2, 1⟩, ⟨"S1b", "Species", 2, 1⟩] =
    .ok ([[("D1", ⟨"D1", "Domain", 0, 1⟩)],
          [("P1", ⟨"P1", "Phylum", 1, 1⟩)],
          [("S1a", ⟨"S1a", "Species", 2, 1⟩), ("S1b", ⟨"S1b", "Species", 2, 1⟩)]],
         [⟨"D1", "Domain", 0, 1⟩, ⟨"P1", "Phylum", 1, 1⟩,
          ⟨"S1a", "Species", 2, 1⟩, ⟨"S1b", "Species", 2, 1⟩]) :=
  createTaxonFromLineages_idempotent ["Domain", "Phylum", "Species"]
    [["D1", "P1", "S1a"], ["D1", "P1", "S1b"]] 1 [] _ _ rfl

/-- C10: Rank–depth consistency: every taxon row present after a
materializer run either was already in the table or was created by the run
with `rank = ranks[depth]`, a depth strictly inside the declared rank list,
and the run's taxonomy source; hence, within one source, taxa created at
the same depth carry the same rank and a created taxon's depth never
reaches the rank list's length. -/
theorem materializer_rank_depth_consistency (ranks : List String)
    (lineages : List (List String)) (sourceId : Nat) (db : List Taxon)
    (nameMap : List (List (String × Taxon))) (db2 : List Taxon)
    (h : createTaxonFromLineages ranks lineages sourceId db = .ok (nameMap, db2)) :
    ∀ t ∈ db2, t ∈ db ∨
      (t.depth < ranks.length ∧ ranks[t.depth]? = some t.rank ∧
        t.sourceId = sourceId) := by
  rw [createTaxonFromLineages] at h
  by_cases hguard : lineages.all (fun l => l.length ≤ ranks.length)
  · rw [if_pos hguard] at h
    have hdb2 : db ++ (materializeDepths lineages sourceId db ranks 0).2 = db2 := by
      cases h
      rfl
    intro t ht
    rw [← hdb2] at ht
    rcases List.mem_append.mp ht with hold | hnew
    · exact Or.inl hold
    · exact Or.inr
        (materializeDepths_news_rank lineages sourceId db ranks ranks 0 rfl t hnew)
  · rw [if_neg hguard] at h
    cases h

/-- C10 witness: in the run of the divergent-species batch over the empty
table, the created species-level taxon `S1a` sits at depth 2 with the
depth-2 rank of the declared list `["Domain","Phylum","Species"]`. -/
theorem materializer_rank_depth_consistency_check :
    (⟨"S1a", "Species", 2, 1⟩ : Taxon) ∈ ([] : List Taxon) ∨
      ((2 : Nat) < 3 ∧
        (["Domain", "Phylum", "Species"] : List String)[2]? = some "Species" ∧
        (1 : Nat) = 1) :=
  materializer_rank_depth_consistency ["Domain", "Phylum", "Species"]
    [["D1", "P1", "S1a"], ["D1", "P1", "S1b"]] 1 []
    [[("D1", ⟨"D1", "Domain", 0, 1⟩)],
     [("P1", ⟨"P1", "Phylum", 1, 1⟩)],
     [("S1a", ⟨"S1a", "Species", 2, 1⟩), ("S1b", ⟨"S1b", "Species", 2, 1⟩)]]
    [⟨"D1", "Domain", 0, 1⟩, ⟨"P1", "Phylum", 1, 1⟩,
     ⟨"S1a", "Species", 2, 1⟩, ⟨"S1b", "Species", 2, 1⟩] rfl
    ⟨"S1a", "Species", 2, 1⟩ (by decide)

/-- C7: Release consistency check: when a release with the input's
(collection, version) already exists, the function compares every immutable
field — ppanggolin version, workflow version and the metadata source name
set; on any mismatch it fails with the consistency error (whose message
names all three compared fields, hence every differing one) and the
database state is returned unchanged, and on a full match it returns the
existing release untouched (the latest-flag recomputation being stable on a
state a previous run already settled). -/
theorem createCollectionRelease_consistency (verKey : String → Nat)
    (collName : String) (inp : ReleaseInput) (metaSourceNames : List String)
    (st : DbState) (rel : ReleaseRec)
    (hcoll : collName ∈ st.collections)
    (hfound : st.releases.find?
      (fun r => r.collectionName == collName && r.version == inp.version) =
      some rel) :
    ((inp.ppanggolinVersion == rel.ppanggolinVersion &&
      inp.pangbankWfVersion == rel.pangbankWfVersion &&
      listSetEq metaSourceNames rel.metadataSources) = false →
      createCollectionRelease verKey collName inp metaSourceNames st =
        (.error consistencyErrorFields, st)) ∧
    ((inp.ppanggolinVersion == rel.ppanggolinVersion &&
      inp.pangbankWfVersion == rel.pangbankWfVersion &&
      listSetEq metaSourceNames rel.metadataSources) = true →
      setLatest verKey collName st.releases = st.releases →
      createCollectionRelease verKey collName inp metaSourceNames st =
        (.ok rel, st)) := by
  constructor
  · intro hcmp
    simp [createCollectionRelease, hcoll, hfound, hcmp]
  · intro hcmp hlat
    simp [createCollectionRelease, hcoll, hfound, hcmp, hlat]

/-- C7 witness: over a database holding the release
`("collA","1.0")` with ppanggolin version `"2.1.0"`, re-ingesting the same
release with ppanggolin version `"2.2.0"` yields the consistency error and
the unchanged state, while re-ingesting it unchanged returns the stored
release and the unchanged state. -/
theorem createCollectionRelease_consistency_check :
    createCollectionRelease (fun _ => 0) "collA" ⟨"1.0", "2.2.0", "1.0.0"⟩
      ["srcA"] ⟨["collA"], [⟨"collA", "1.0", "2.1.0", "1.0.0", ["srcA"], true⟩]⟩ =
      (.error consistencyErrorFields,
       ⟨["collA"], [⟨"collA", "1.0", "2.1.0", "1.0.0", ["srcA"], true⟩]⟩) ∧
    createCollectionRelease (fun _ => 0) "collA" ⟨"1.0", "2.1.0", "1.0.0"⟩
      ["srcA"] ⟨["collA"], [⟨"collA", "1.0", "2.1.0", "1.0.0", ["srcA"], true⟩]⟩ =
      (.ok ⟨"collA", "1.0", "2.1.0", "1.0.0", ["srcA"], true⟩,
       ⟨["collA"], [⟨"collA", "1.0", "2.1.0", "1.0.0", ["srcA"], true⟩]⟩) :=
  ⟨(createCollectionRelease_consistency (fun _ => 0) "collA"
      ⟨"1.0", "2.2.0", "1.0.0"⟩ ["srcA"]
      ⟨["collA"], [⟨"collA", "1.0", "2.1.0", "1.0.0", ["srcA"], true⟩]⟩
      ⟨"collA", "1.0", "2.1.0", "1.0.0", ["srcA"], true⟩
      (by decide) (by decide)).1 (by decide),
   (createCollectionRelease_consistency (fun _ => 0) "collA"
      ⟨"1.0", "2.1.0", "1.0.0"⟩ ["srcA"]
      ⟨["collA"], [⟨"collA", "1.0", "2.1.0", "1.0.0", ["srcA"], true⟩]⟩
      ⟨"collA", "1.0", "2.1.0", "1.0.0", ["srcA"], true⟩
      (by decide) (by decide)).2 (by decide) (by decide)⟩

end PanGBank
